import Mathlib

/-!
Verification development for the Flask observability-lab backend
(`backend/app.py`): the request-instrumentation middleware, the DB
operation timer, the Prometheus-style metrics registry, and the task
CRUD handlers, shallowly embedded in Lean.

Conventions of the embedding:
* Python `str` values analysed character-by-character are `List Char`;
  strings that are only constructed and compared are `String`.
* Clock reads (`time.time()` / `perf_counter()`) are explicit `Nat`
  parameters, one per read the code performs, in program order.
* Prometheus counters are modelled as the list of label tuples of all
  increments performed (so a series' value is a `count`, and the total
  is a `length`); histograms as the list of (labels, value) pairs of
  all observations.
-/

namespace ObsLab

/-! ## DB Operation Timer (`_before_cursor_execute` / `_after_cursor_execute`) -/

/-- Python `str.lstrip()` on the character-list model: drop leading whitespace. -/
def pyLstrip (l : List Char) : List Char := l.dropWhile (fun c => c.isWhitespace)

/-- Python `str.upper()` on the character-list model (ASCII uppercasing). -/
def pyUpper (l : List Char) : List Char := l.map (fun c => c.toUpper)

/-- `s = statement.lstrip().upper()` in `_after_cursor_execute`
(`backend/app.py` line 137). -/
def normStmt (statement : List Char) : List Char := pyUpper (pyLstrip statement)

/-- The statement classification of `_after_cursor_execute`
(`backend/app.py` lines 137-144): uppercase the lstripped statement,
default the operation label to `"SELECT"`, and override it for
statements starting with `INSERT`, `UPDATE` or `DELETE`. -/
def classifyOp (statement : List Char) : List Char :=
  if List.isPrefixOf "INSERT".toList (normStmt statement) then "INSERT".toList
  else if List.isPrefixOf "UPDATE".toList (normStmt statement) then "UPDATE".toList
  else if List.isPrefixOf "DELETE".toList (normStmt statement) then "DELETE".toList
  else "SELECT".toList

/-- `_after_cursor_execute` (`backend/app.py` lines 129-146): the
execution context either carries the start instant set by
`_before_cursor_execute` (`some started`) or does not (`none`, the
`AttributeError` path, in which case the hook returns having observed
nothing). On success it observes the elapsed time into the
`db_query_duration_seconds` histogram under the classified operation
label. The histogram is the list of (operation label, elapsed)
observations, newest first. -/
def afterCursorExecute (context : Option Nat) (now : Nat)
    (statement : List Char) (hist : List (List Char × Nat)) :
    List (List Char × Nat) :=
  match context with
  | none => hist
  | some started => (classifyOp statement, now - started) :: hist

/-- Operation kinds as the spec names them. -/
inductive OpKind where
  | select | insert | update | delete | other
deriving DecidableEq, Repr

/-- Map the code's operation label to the spec's operation kind. -/
def labelToKind (l : List Char) : OpKind :=
  if l = "SELECT".toList then .select
  else if l = "INSERT".toList then .insert
  else if l = "UPDATE".toList then .update
  else if l = "DELETE".toList then .delete
  else .other

/-- The classification exactly as claim C1 (and spec section 4.4) words it:
leading keyword after stripping whitespace, case-insensitively,
`SELECT`/`INSERT`/`UPDATE`/`DELETE` to their kinds and **any other
leading keyword to `other`**. -/
def claimKind (statement : List Char) : OpKind :=
  if List.isPrefixOf "SELECT".toList (normStmt statement) then .select
  else if List.isPrefixOf "INSERT".toList (normStmt statement) then .insert
  else if List.isPrefixOf "UPDATE".toList (normStmt statement) then .update
  else if List.isPrefixOf "DELETE".toList (normStmt statement) then .delete
  else .other

/-- The amended classification: as claim C1, except that an unrecognized
leading keyword classifies as `select` (the code's default label), not
as a distinct `other` class. -/
def amendedKind (statement : List Char) : OpKind :=
  if List.isPrefixOf "SELECT".toList (normStmt statement) then .select
  else if List.isPrefixOf "INSERT".toList (normStmt statement) then .insert
  else if List.isPrefixOf "UPDATE".toList (normStmt statement) then .update
  else if List.isPrefixOf "DELETE".toList (normStmt statement) then .delete
  else .select

/-- Two prefixes of the same list start with the same character. -/
theorem head_eq_of_isPrefixOf {a b : Char} {p q s : List Char}
    (ha : List.isPrefixOf (a :: p) s = true)
    (hb : List.isPrefixOf (b :: q) s = true) : a = b := by
  cases s with
  | nil => simp [List.isPrefixOf] at ha
  | cons c t =>
    simp [List.isPrefixOf] at ha hb
    exact ha.1.trans hb.1.symm

/-- Keywords starting with distinct characters cannot both start the
same normalized statement. -/
theorem kw_distinct {s x y : List Char} {a b : Char} {p q : List Char}
    (hx : x = a :: p) (hy : y = b :: q) (hab : a ≠ b)
    (hA : List.isPrefixOf x s = true) : ¬ List.isPrefixOf y s = true := by
  intro hB
  rw [hx] at hA
  rw [hy] at hB
  exact hab (head_eq_of_isPrefixOf hA hB)

/-- The code's classification agrees with the amended spec
classification once labels are read back as operation kinds. -/
theorem classifyOp_agrees (stmt : List Char) :
    labelToKind (classifyOp stmt) = amendedKind stmt := by
  unfold classifyOp amendedKind
  by_cases hI : List.isPrefixOf "INSERT".toList (normStmt stmt) = true
  · have hS := kw_distinct (show "INSERT".toList = 'I' :: "NSERT".toList by decide)
      (show "SELECT".toList = 'S' :: "ELECT".toList by decide) (by decide) hI
    rw [if_pos hI, if_neg hS, if_pos hI]
    decide
  · rw [if_neg hI]
    by_cases hU : List.isPrefixOf "UPDATE".toList (normStmt stmt) = true
    · have hS := kw_distinct (show "UPDATE".toList = 'U' :: "PDATE".toList by decide)
        (show "SELECT".toList = 'S' :: "ELECT".toList by decide) (by decide) hU
      rw [if_pos hU, if_neg hS, if_neg hI, if_pos hU]
      decide
    · rw [if_neg hU]
      by_cases hD : List.isPrefixOf "DELETE".toList (normStmt stmt) = true
      · have hS := kw_distinct (show "DELETE".toList = 'D' :: "ELETE".toList by decide)
          (show "SELECT".toList = 'S' :: "ELECT".toList by decide) (by decide) hD
        rw [if_pos hD, if_neg hS, if_neg hI, if_neg hU, if_pos hD]
        decide
      · rw [if_neg hD]
        by_cases hS : List.isPrefixOf "SELECT".toList (normStmt stmt) = true
        · rw [if_pos hS]; decide
        · rw [if_neg hS, if_neg hI, if_neg hU, if_neg hD]
          decide

/-! ## Request Instrumentation Middleware (`before_request` / `after_request`)

Clock reads are explicit parameters in program order: `before_request`
performs two reads (`request.start_time = time.time()` then
`g.prom_start_time = time.time()`, lines 160-161), and `after_request`
performs two more (line 176 for the log duration, line 184 for the
Prometheus duration). -/

/-- A Prometheus label tuple (method, endpoint, status_code) as used by
`http_requests_total`, `http_request_duration_seconds` and
`http_errors_total`. -/
structure Labels where
  method : String
  endpoint : String
  status_code : String
deriving DecidableEq, Repr

/-- The metrics registry: counters are the list of label tuples of all
increments (newest first), histograms the list of (labels, value)
observations. A counter series' value is a `List.count`; summing every
series gives the list's `length`. -/
structure MetricsState where
  httpRequestsTotal : List Labels
  httpRequestDuration : List (Labels × Nat)
  httpErrorsTotal : List Labels
  dbQueryDuration : List (List Char × Nat)
deriving DecidableEq, Repr

/-- Per-request timing state: `request.start_time` and
`g.prom_start_time`, each possibly unset. -/
structure ReqCtx where
  start_time : Option Nat
  prom_start_time : Option Nat
deriving DecidableEq, Repr

/-- A structured log record (only the fields the claims mention). -/
structure LogRec where
  message : String
  status_code : Option Nat
  duration_seconds : Option Nat
deriving DecidableEq, Repr

/-- `before_request` (`backend/app.py` lines 158-171): two successive
clock reads `t1` (stored in `request.start_time`) and `t2` (stored in
`g.prom_start_time`), plus the "Incoming request" log record. -/
def before_request (t1 t2 : Nat) : ReqCtx × LogRec :=
  (⟨some t1, some t2⟩, ⟨"Incoming request", none, none⟩)

/-- `after_request` (`backend/app.py` lines 173-217). If
`request.start_time` is unset the function returns the response
untouched (no metrics, no log). Otherwise it computes the log duration
from clock read `t3`, and — when `g.prom_start_time` is set — computes
the Prometheus duration from clock read `t4`, increments
`http_requests_total`, observes `http_request_duration_seconds`, and
increments `http_errors_total` when the status is at least 400; finally
it emits the "Request completed" log record. -/
def after_request (ctx : ReqCtx) (method : String) (endpointMatch : Option String)
    (status : Nat) (t3 t4 : Nat) (m : MetricsState) : MetricsState × List LogRec :=
  match ctx.start_time with
  | none => (m, [])
  | some st =>
    let duration := t3 - st
    let endpoint := endpointMatch.getD "unknown"
    let lbl : Labels := ⟨method, endpoint, toString status⟩
    let m1 : MetricsState :=
      match ctx.prom_start_time with
      | none => m
      | some pst =>
        let promDuration := t4 - pst
        let m2 : MetricsState := { m with
          httpRequestsTotal := lbl :: m.httpRequestsTotal,
          httpRequestDuration := (lbl, promDuration) :: m.httpRequestDuration }
        if 400 ≤ status then
          { m2 with httpErrorsTotal := lbl :: m2.httpErrorsTotal }
        else m2
    (m1, [⟨"Request completed", some status, some duration⟩])

/-- One DB statement execution performed by a route handler during a
request: its text, whether the before-execute hook fired (it always
does once the listeners are registered; `false` models the defensive
`AttributeError` path), and its start/end instants. -/
structure DbCall where
  statement : List Char
  beforeFired : Bool
  startTime : Nat
  endTime : Nat
deriving DecidableEq, Repr

/-- Run one DB call through the hook pair: `_before_cursor_execute`
attaches the start instant when it fires, `_after_cursor_execute`
observes into `db_query_duration_seconds`. -/
def runDbCall (m : MetricsState) (c : DbCall) : MetricsState :=
  let ctx : Option Nat := if c.beforeFired then some c.startTime else none
  { m with dbQueryDuration :=
      afterCursorExecute ctx c.endTime c.statement m.dbQueryDuration }

/-- How the route handler's execution ended: a returned response
(success or a handled error), or an uncaught exception. -/
inductive HandlerExit where
  | response (status : Nat)
  | exception
deriving DecidableEq, Repr

/-- Modelled from the spec: the outer framework boundary (spec
sections 4.1 and 7; the WSGI layer with debug disabled, which is not
part of `src/`) converts an unhandled handler exception into an
internal-error 500 response before response post-processing runs. -/
def responseStatus : HandlerExit → Nat
  | .response s => s
  | .exception => 500

/-- One inbound request: routing data, the DB calls its handler
performs, how the handler exits, and the four clock reads of the
middleware in program order. -/
structure RequestSpec where
  method : String
  endpointMatch : Option String
  dbCalls : List DbCall
  exit : HandlerExit
  t1 : Nat
  t2 : Nat
  t3 : Nat
  t4 : Nat
deriving DecidableEq, Repr

/-- The label tuple `after_request` uses for a request: its method, the
matched endpoint or `"unknown"`, and the final status rendered as a
string. -/
def labelOf (r : RequestSpec) : Labels :=
  ⟨r.method, r.endpointMatch.getD "unknown", toString (responseStatus r.exit)⟩

/-- Full middleware-wrapped processing of one request:
`before_request`, the handler's DB calls through the hook pair, then
`after_request` on the produced status. Returns the updated registry
and the emitted log records in order. -/
def handleRequest (m : MetricsState) (r : RequestSpec) : MetricsState × List LogRec :=
  let bp := before_request r.t1 r.t2
  let m1 := r.dbCalls.foldl runDbCall m
  let ar := after_request bp.fst r.method r.endpointMatch (responseStatus r.exit) r.t3 r.t4 m1
  (ar.fst, bp.snd :: ar.snd)

/-- Process a sequence of requests, threading the metrics registry. -/
def handleAll (m : MetricsState) (rs : List RequestSpec) : MetricsState :=
  rs.foldl (fun acc r => (handleRequest acc r).fst) m

/-- The DB hook pair touches only the `db_query_duration_seconds`
histogram: any number of DB calls leaves the three HTTP series
unchanged. -/
theorem foldl_runDbCall_http (m : MetricsState) (cs : List DbCall) :
    (cs.foldl runDbCall m).httpRequestsTotal = m.httpRequestsTotal
  ∧ (cs.foldl runDbCall m).httpRequestDuration = m.httpRequestDuration
  ∧ (cs.foldl runDbCall m).httpErrorsTotal = m.httpErrorsTotal := by
  induction cs generalizing m with
  | nil => exact ⟨rfl, rfl, rfl⟩
  | cons c cs ih => simpa [runDbCall] using ih (runDbCall m c)

/-- Metrics effect of processing one request through the middleware. -/
theorem handleRequest_fst (m : MetricsState) (r : RequestSpec) :
    (handleRequest m r).fst
      = ⟨labelOf r :: m.httpRequestsTotal,
         (labelOf r, r.t4 - r.t2) :: m.httpRequestDuration,
         if 400 ≤ responseStatus r.exit
           then labelOf r :: m.httpErrorsTotal else m.httpErrorsTotal,
         (r.dbCalls.foldl runDbCall m).dbQueryDuration⟩ := by
  obtain ⟨h1, h2, h3⟩ := foldl_runDbCall_http m r.dbCalls
  by_cases h4 : 400 ≤ responseStatus r.exit <;>
    simp [handleRequest, after_request, before_request, labelOf, h1, h2, h3, h4]

/-- Log records emitted while processing one request. -/
theorem handleRequest_snd (m : MetricsState) (r : RequestSpec) :
    (handleRequest m r).snd
      = [⟨"Incoming request", none, none⟩,
         ⟨"Request completed", some (responseStatus r.exit), some (r.t3 - r.t1)⟩] := by
  simp [handleRequest, after_request, before_request]

/-- The registry with no samples yet. -/
def emptyMetrics : MetricsState := ⟨[], [], [], []⟩

/-- A concrete probe request whose four middleware clock reads are
0, 5, 10 and 20: a GET on the matched endpoint `health_check`, no DB
calls, handler returns 200. -/
def skewProbe : RequestSpec := ⟨"GET", some "health_check", [], .response 200, 0, 5, 10, 20⟩

/-- C1 counterexample: the claim says an unrecognized leading keyword
classifies as `other`, but the code's default label is `"SELECT"`, so a
`CREATE TABLE` statement is observed under the select classification,
not under a distinct other classification. -/
theorem C1_counterexample :
    labelToKind (classifyOp "CREATE TABLE tasks (id INTEGER PRIMARY KEY)".toList)
      ≠ claimKind "CREATE TABLE tasks (id INTEGER PRIMARY KEY)".toList := by decide

/-- C1 (amended): every statement execution whose before-hook fired is
observed exactly once into the DB-duration histogram, under the label
of its classification; the classification reads the leading keyword of
the whitespace-lstripped statement case-insensitively, mapping INSERT,
UPDATE and DELETE to their kinds and every other leading keyword
(including SELECT) to select, the default label. -/
theorem C1_amended_classification (started now : Nat) (stmt : List Char)
    (hist : List (List Char × Nat)) :
    afterCursorExecute (some started) now stmt hist
        = (classifyOp stmt, now - started) :: hist
  ∧ labelToKind (classifyOp stmt) = amendedKind stmt :=
  ⟨rfl, classifyOp_agrees stmt⟩

/-- C2: over any sequence of handled requests, each request produces
exactly one increment of `http_requests_total` and exactly one
observation of `http_request_duration_seconds` — so the sum over all
series equals the number of requests handled — and both are
partitioned exactly by (method, matched-or-unknown endpoint, status),
regardless of how many DB samples occurred within each request. -/
theorem C2_request_count_partition (m : MetricsState) (rs : List RequestSpec) :
    ((handleAll m rs).httpRequestsTotal.length
        = m.httpRequestsTotal.length + rs.length)
  ∧ ((handleAll m rs).httpRequestDuration.length
        = m.httpRequestDuration.length + rs.length)
  ∧ (∀ lbl : Labels, (handleAll m rs).httpRequestsTotal.count lbl
        = m.httpRequestsTotal.count lbl + (rs.map labelOf).count lbl)
  ∧ ∀ lbl : Labels, ((handleAll m rs).httpRequestDuration.map Prod.fst).count lbl
        = (m.httpRequestDuration.map Prod.fst).count lbl + (rs.map labelOf).count lbl := by
  induction rs generalizing m with
  | nil => simp [handleAll]
  | cons r rs ih =>
    obtain ⟨ha, hb, hc, hd⟩ := ih (handleRequest m r).fst
    have hstep : handleAll m (r :: rs) = handleAll (handleRequest m r).fst rs := rfl
    refine ⟨?_, ?_, ?_, ?_⟩
    · rw [hstep, ha, handleRequest_fst]
      simp
      omega
    · rw [hstep, hb, handleRequest_fst]
      simp
      omega
    · intro lbl
      rw [hstep, hc lbl, handleRequest_fst]
      simp [List.count_cons]
      by_cases hl : labelOf r = lbl
      · simp [hl]
        omega
      · simp [hl]
    · intro lbl
      rw [hstep, hd lbl, handleRequest_fst]
      simp [List.count_cons]
      by_cases hl : labelOf r = lbl
      · simp [hl]
        omega
      · simp [hl]

/-- C3: the completion accounting (request-count increment, duration
observation, conditional error-count increment, and the "Request
completed" log record) executes for every request regardless of how
the handler exited — success, handled error response, or an unhandled
handler exception converted to a 500 by the outer boundary. -/
theorem C3_accounting_every_exit (m : MetricsState) (r : RequestSpec) :
    ((handleRequest m r).fst.httpRequestsTotal = labelOf r :: m.httpRequestsTotal)
  ∧ ((handleRequest m r).fst.httpRequestDuration
      = (labelOf r, r.t4 - r.t2) :: m.httpRequestDuration)
  ∧ ((handleRequest m r).fst.httpErrorsTotal
      = if 400 ≤ responseStatus r.exit then labelOf r :: m.httpErrorsTotal
        else m.httpErrorsTotal)
  ∧ (⟨"Request completed", some (responseStatus r.exit), some (r.t3 - r.t1)⟩ : LogRec)
      ∈ (handleRequest m r).snd := by
  rw [handleRequest_fst, handleRequest_snd]
  refine ⟨rfl, rfl, rfl, ?_⟩
  simp

/-- C4 counterexample: on a concrete run whose middleware clock reads
are 0, 5, 10, 20, the logged duration is 10 and the observed histogram
duration is 15; no single shared start instant `s` can produce both
(it would need `10 - s = 10` and `20 - s = 15`, i.e. `s = 0` and
`s = 5`). The claim's single shared clock reading is refuted: the code
takes two separate entry reads. -/
theorem C4_counterexample :
    ¬ ∃ s : Nat,
      (handleRequest emptyMetrics skewProbe).snd
          = [⟨"Incoming request", none, none⟩,
             ⟨"Request completed", some 200, some (10 - s)⟩]
        ∧ (handleRequest emptyMetrics skewProbe).fst.httpRequestDuration
          = [(⟨"GET", "health_check", "200"⟩, 20 - s)] := by
  rintro ⟨s, h1, h2⟩
  rw [handleRequest_snd] at h1
  rw [handleRequest_fst] at h2
  simp [skewProbe, responseStatus, labelOf, emptyMetrics] at h1 h2
  omega

/-- C4 (amended): on entry the middleware takes two successive clock
readings, not one; the "Request completed" log duration is computed
from the first entry read (`request.start_time`) and the histogram
duration from the second (`g.prom_start_time`), each against its own
completion-time read. -/
theorem C4_amended_two_start_reads (m : MetricsState) (r : RequestSpec) :
    ((handleRequest m r).snd
        = [⟨"Incoming request", none, none⟩,
           ⟨"Request completed", some (responseStatus r.exit), some (r.t3 - r.t1)⟩])
  ∧ ((handleRequest m r).fst.httpRequestDuration
        = (labelOf r, r.t4 - r.t2) :: m.httpRequestDuration) := by
  refine ⟨handleRequest_snd m r, ?_⟩
  rw [handleRequest_fst]

/-- C5 counterexample: for a request whose timing state was not
established at entry, `after_request` emits no log record at all — the
claimed "log record stating they were omitted" does not exist. -/
theorem C5_counterexample :
    (after_request ⟨none, none⟩ "GET" (some "health_check") 200 7 9 emptyMetrics).snd
      = ([] : List LogRec) := rfl

/-- C5 (amended): when `request.start_time` is missing, completion
logging and metrics recording are skipped entirely and silently (no
omission log record), with the registry unchanged and no duration
fabricated; when only `g.prom_start_time` is missing, metrics are
skipped but the completion log is still emitted with the computed
duration. -/
theorem C5_amended_silent_skip (pst : Option Nat) (st : Nat) (method : String)
    (ep : Option String) (status t3 t4 : Nat) (m : MetricsState) :
    after_request ⟨none, pst⟩ method ep status t3 t4 m = (m, [])
  ∧ after_request ⟨some st, none⟩ method ep status t3 t4 m
      = (m, [⟨"Request completed", some status, some (t3 - st)⟩]) := ⟨rfl, rfl⟩

/-- C6: for a completed request with status at least 400, the
`http_errors_total` series of exactly that request's
(method, endpoint, status) label grows by exactly 1 and every other
series is unchanged; for status below 400, no error series grows. -/
theorem C6_error_counter (m : MetricsState) (r : RequestSpec) (lbl : Labels) :
    (handleRequest m r).fst.httpErrorsTotal.count lbl
      = m.httpErrorsTotal.count lbl
        + (if 400 ≤ responseStatus r.exit ∧ lbl = labelOf r then 1 else 0) := by
  rw [handleRequest_fst]
  by_cases h : 400 ≤ responseStatus r.exit
  · simp [h, List.count_cons]
    by_cases hl : lbl = labelOf r
    · simp [hl]
    · simp [hl]
      exact fun he => hl he.symm
  · simp [h]

/-- C7: when the before-execute hook did not attach a start instant to
the execution context, the after-execute hook is a no-op: it returns
(totally, without raising) and records no histogram observation. -/
theorem C7_after_hook_noop (now : Nat) (stmt : List Char)
    (hist : List (List Char × Nat)) :
    afterCursorExecute none now stmt hist = hist := rfl

/-! ## Decimal rendering and ISO-8601 formatting -/

/-- Decimal digit characters of `n` prepended to `acc`. -/
def natCharsAux (n : Nat) (acc : List Char) : List Char :=
  if n < 10 then Nat.digitChar n :: acc
  else natCharsAux (n / 10) (Nat.digitChar (n % 10) :: acc)
termination_by n
decreasing_by exact Nat.div_lt_self (by omega) (by omega)

/-- Decimal digit characters of `n` (Python `str(n)` for `n : Nat`). -/
def natChars (n : Nat) : List Char := natCharsAux n []

theorem natChars_small {n : Nat} (h : n < 10) : natChars n = [Nat.digitChar n] := by
  rw [natChars, natCharsAux]
  rw [if_pos h]

theorem natCharsAux_eq_append (n : Nat) (acc : List Char) :
    natCharsAux n acc = natChars n ++ acc := by
  induction n using Nat.strong_induction_on generalizing acc with
  | _ n ih =>
    by_cases h : n < 10
    · rw [natCharsAux, natChars_small h]
      rw [if_pos h]
      simp
    · have e1 : natCharsAux n acc = natCharsAux (n / 10) (Nat.digitChar (n % 10) :: acc) := by
        rw [natCharsAux]
        rw [if_neg h]
      have e2 : natChars n = natCharsAux (n / 10) [Nat.digitChar (n % 10)] := by
        rw [natChars, natCharsAux]
        rw [if_neg h]
      have hlt : n / 10 < n := Nat.div_lt_self (by omega) (by omega)
      rw [e1, e2, ih (n / 10) hlt, ih (n / 10) hlt]
      simp

theorem natChars_step {n : Nat} (h : ¬ n < 10) :
    natChars n = natChars (n / 10) ++ [Nat.digitChar (n % 10)] := by
  rw [natChars, natCharsAux]
  rw [if_neg h, natCharsAux_eq_append]

theorem digitChar_isDigit {k : Nat} (h : k < 10) : (Nat.digitChar k).isDigit = true := by
  interval_cases k <;> decide

theorem natChars_all_digit (n : Nat) : ∀ c ∈ natChars n, c.isDigit = true := by
  induction n using Nat.strong_induction_on with
  | _ n ih =>
    intro c hc
    by_cases h : n < 10
    · rw [natChars_small h] at hc
      simp at hc
      rw [hc]
      exact digitChar_isDigit h
    · rw [natChars_step h] at hc
      simp at hc
      rcases hc with hc | hc
      · exact ih (n / 10) (Nat.div_lt_self (by omega) (by omega)) c hc
      · rw [hc]
        exact digitChar_isDigit (Nat.mod_lt n (by omega))

theorem natChars_length_le {n k : Nat} (hk : 1 ≤ k) (h : n < 10 ^ k) :
    (natChars n).length ≤ k := by
  induction k generalizing n with
  | zero => omega
  | succ k ih =>
    by_cases h10 : n < 10
    · rw [natChars_small h10]
      simp
    · have hk1 : 1 ≤ k := by
        rcases Nat.lt_or_ge k 1 with hk0 | hk0
        · exfalso
          have hk00 : k = 0 := by omega
          subst hk00
          have : (10 : Nat) ^ (0 + 1) = 10 := by norm_num
          omega
        · exact hk0
      have hdiv : n / 10 < 10 ^ k := by
        have h2 : n < 10 ^ k * 10 := by
          rw [pow_succ] at h
          omega
        omega
      have hl := ih hk1 hdiv
      rw [natChars_step h10]
      simp
      omega

theorem natChars_length_pos (n : Nat) : 1 ≤ (natChars n).length := by
  by_cases h : n < 10
  · rw [natChars_small h]
    simp
  · rw [natChars_step h]
    simp

/-- Zero left-padding to width `k`. -/
def padZeros (k : Nat) (l : List Char) : List Char :=
  List.replicate (k - l.length) '0' ++ l

/-- Python `f-string` fixed-width decimal (e.g. `04d`): digits of `n`
left-padded with zeros to width `k`, as `datetime.isoformat` renders
each field. -/
def fmtNat (k n : Nat) : List Char := padZeros k (natChars n)

theorem fmtNat_length {k n : Nat} (h : (natChars n).length ≤ k) :
    (fmtNat k n).length = k := by
  simp [fmtNat, padZeros]
  omega

theorem fmtNat_all_digit (k n : Nat) : ∀ c ∈ fmtNat k n, c.isDigit = true := by
  intro c hc
  simp [fmtNat, padZeros] at hc
  rcases hc with ⟨_, hc⟩ | hc
  · rw [hc]
    decide
  · exact natChars_all_digit n c hc

theorem exists_len_two {l : List Char} (h : l.length = 2) :
    ∃ a b, l = [a, b] := List.length_eq_two.mp h

theorem exists_len_four {l : List Char} (h : l.length = 4) :
    ∃ a b c d, l = [a, b, c, d] := by
  obtain ⟨a, t, rfl⟩ := List.exists_of_length_succ l h
  have ht : t.length = 3 := by simpa using h
  obtain ⟨b, c, d, rfl⟩ := List.length_eq_three.mp ht
  exact ⟨a, b, c, d, rfl⟩

/-- A `datetime.datetime` value (the fields `isoformat` renders). -/
structure PyDateTime where
  year : Nat
  month : Nat
  day : Nat
  hour : Nat
  minute : Nat
  second : Nat
  microsecond : Nat
deriving DecidableEq, Repr

/-- Ranges `datetime.datetime` guarantees for its fields. -/
def PyDateTime.Valid (dt : PyDateTime) : Prop :=
  dt.year < 10000 ∧ 1 ≤ dt.month ∧ dt.month ≤ 12 ∧ 1 ≤ dt.day ∧ dt.day ≤ 31
    ∧ dt.hour < 24 ∧ dt.minute < 60 ∧ dt.second < 60 ∧ dt.microsecond < 1000000

/-- `datetime.isoformat()`: `YYYY-MM-DDTHH:MM:SS`, with `.ffffff`
appended exactly when the microsecond field is nonzero. -/
def isoChars (dt : PyDateTime) : List Char :=
  fmtNat 4 dt.year ++ '-' :: fmtNat 2 dt.month ++ '-' :: fmtNat 2 dt.day
    ++ 'T' :: fmtNat 2 dt.hour ++ ':' :: fmtNat 2 dt.minute ++ ':' :: fmtNat 2 dt.second
    ++ (if dt.microsecond = 0 then [] else '.' :: fmtNat 6 dt.microsecond)

/-- `datetime.isoformat()` as a Python string. -/
def PyDateTime.isoformat (dt : PyDateTime) : String := String.mk (isoChars dt)

/-- An ISO-8601 combined date-time validator (the shape
`datetime.fromisoformat` accepts): `DDDD-DD-DDTDD:DD:DD` optionally
followed by `.` and one or more fractional digits. -/
def checkISO : List Char → Bool
  | y1 :: y2 :: y3 :: y4 :: '-' :: o1 :: o2 :: '-' :: d1 :: d2 :: 'T'
      :: h1 :: h2 :: ':' :: i1 :: i2 :: ':' :: s1 :: s2 :: rest =>
    [y1, y2, y3, y4, o1, o2, d1, d2, h1, h2, i1, i2, s1, s2].all Char.isDigit
      && (match rest with
          | [] => true
          | '.' :: fs => !fs.isEmpty && fs.all Char.isDigit
          | _ => false)
  | _ => false

/-- A parseable-ISO-8601 check on Python strings. -/
def isParseableISO (s : String) : Bool := checkISO s.toList

theorem checkISO_isoChars {dt : PyDateTime} (h : dt.Valid) :
    checkISO (isoChars dt) = true := by
  obtain ⟨hy, hm1, hm2, hd1, hd2, hh, hmin, hsec, hus⟩ := h
  have p4 : (10 : Nat) ^ 4 = 10000 := by norm_num
  have p2 : (10 : Nat) ^ 2 = 100 := by norm_num
  have p6 : (10 : Nat) ^ 6 = 1000000 := by norm_num
  have ly : (fmtNat 4 dt.year).length = 4 :=
    fmtNat_length (natChars_length_le (by norm_num) (by omega))
  have lmo : (fmtNat 2 dt.month).length = 2 :=
    fmtNat_length (natChars_length_le (by norm_num) (by omega))
  have ld : (fmtNat 2 dt.day).length = 2 :=
    fmtNat_length (natChars_length_le (by norm_num) (by omega))
  have lh : (fmtNat 2 dt.hour).length = 2 :=
    fmtNat_length (natChars_length_le (by norm_num) (by omega))
  have li : (fmtNat 2 dt.minute).length = 2 :=
    fmtNat_length (natChars_length_le (by norm_num) (by omega))
  have ls : (fmtNat 2 dt.second).length = 2 :=
    fmtNat_length (natChars_length_le (by norm_num) (by omega))
  have lus : (fmtNat 6 dt.microsecond).length = 6 :=
    fmtNat_length (natChars_length_le (by norm_num) (by omega))
  obtain ⟨y1, y2, y3, y4, hey⟩ := exists_len_four ly
  obtain ⟨o1, o2, heo⟩ := exists_len_two lmo
  obtain ⟨d1, d2, hed⟩ := exists_len_two ld
  obtain ⟨b1, b2, heh⟩ := exists_len_two lh
  obtain ⟨i1, i2, hei⟩ := exists_len_two li
  obtain ⟨s1, s2, hes⟩ := exists_len_two ls
  have dy := fmtNat_all_digit 4 dt.year
  rw [hey] at dy
  have dmo := fmtNat_all_digit 2 dt.month
  rw [heo] at dmo
  have dd := fmtNat_all_digit 2 dt.day
  rw [hed] at dd
  have dh := fmtNat_all_digit 2 dt.hour
  rw [heh] at dh
  have di := fmtNat_all_digit 2 dt.minute
  rw [hei] at di
  have ds := fmtNat_all_digit 2 dt.second
  rw [hes] at ds
  have dy1 := dy y1 (by simp)
  have dy2 := dy y2 (by simp)
  have dy3 := dy y3 (by simp)
  have dy4 := dy y4 (by simp)
  have do1 := dmo o1 (by simp)
  have do2 := dmo o2 (by simp)
  have dd1 := dd d1 (by simp)
  have dd2 := dd d2 (by simp)
  have db1 := dh b1 (by simp)
  have db2 := dh b2 (by simp)
  have di1 := di i1 (by simp)
  have di2 := di i2 (by simp)
  have ds1 := ds s1 (by simp)
  have ds2 := ds s2 (by simp)
  rw [isoChars, hey, heo, hed, heh, hei, hes]
  by_cases hus0 : dt.microsecond = 0
  · rw [if_pos hus0]
    simp [checkISO, List.cons_append, List.append_assoc, dy1, dy2, dy3, dy4,
      do1, do2, dd1, dd2, db1, db2, di1, di2, ds1, ds2]
  · rw [if_neg hus0]
    have hne : (fmtNat 6 dt.microsecond).isEmpty = false := by
      cases hfe : fmtNat 6 dt.microsecond with
      | nil =>
        rw [hfe] at lus
        simp at lus
      | cons a t => simp
    have hall : (fmtNat 6 dt.microsecond).all Char.isDigit = true := by
      rw [List.all_eq_true]
      exact fmtNat_all_digit 6 dt.microsecond
    simp [checkISO, List.cons_append, List.append_assoc, dy1, dy2, dy3, dy4,
      do1, do2, dd1, dd2, db1, db2, di1, di2, ds1, ds2, hne, hall]

/-! ## Task records and CRUD handlers -/

/-- A row of the `tasks` table (class `Task`, `backend/app.py`
lines 109-115). -/
structure Task where
  id : Nat
  title : String
  description : Option String
  completed : Bool
  created_at : PyDateTime
deriving DecidableEq, Repr

/-- The JSON object `Task.to_dict` returns (lines 117-124):
`created_at` is rendered with `isoformat()`. -/
structure TaskDict where
  id : Nat
  title : String
  description : Option String
  completed : Bool
  created_at : String
deriving DecidableEq, Repr

/-- `Task.to_dict`. -/
def Task.to_dict (t : Task) : TaskDict :=
  ⟨t.id, t.title, t.description, t.completed, t.created_at.isoformat⟩

/-- A parsed JSON request body for create/update: each of the three
recognized keys present (`some`) or absent (`none`). -/
structure TaskBody where
  title : Option String
  description : Option String
  completed : Option Bool
deriving DecidableEq, Repr

/-- `POST /api/tasks` outcomes: 201 with the new row's dict, or 400
`Title is required`. -/
inductive CreateResult where
  | created (body : TaskDict)
  | badRequest
deriving DecidableEq, Repr

/-- `GET /api/tasks/{id}` outcomes: 200 with the dict, or 404. -/
inductive GetResult where
  | ok (body : TaskDict)
  | notFound
deriving DecidableEq, Repr

/-- `PUT /api/tasks/{id}` outcomes: 200 with the dict, 404, or the 500
exception path (which rolls the session back). -/
inductive UpdateResult where
  | ok (body : TaskDict)
  | notFound
  | serverError
deriving DecidableEq, Repr

/-- SQLite `INTEGER PRIMARY KEY` assignment on insert: one more than
the largest existing id (1 on an empty table). -/
def freshId (db : List Task) : Nat :=
  (db.map (fun t => t.id)).foldl max 0 + 1

/-- `create_task` (lines 283-323): reject a missing body or missing
title with 400; otherwise insert a row with
`description = data.get('description', '')`,
`completed = data.get('completed', False)`, `created_at` defaulted to
the current UTC instant `now`, and respond 201 with its `to_dict`. -/
def create_task (db : List Task) (data : Option TaskBody) (now : PyDateTime) :
    List Task × CreateResult :=
  match data with
  | none => (db, .badRequest)
  | some d =>
    match d.title with
    | none => (db, .badRequest)
    | some title =>
      let t : Task := ⟨freshId db, title, some (d.description.getD ""),
                       d.completed.getD false, now⟩
      (db ++ [t], .created t.to_dict)

/-- `get_task` (lines 253-281): `Task.query.get(task_id)` (lookup by
primary key, modelled as first match) then 404 or 200 `to_dict`. -/
def get_task (db : List Task) (task_id : Nat) : GetResult :=
  match db.find? (fun t => t.id == task_id) with
  | none => .notFound
  | some t => .ok t.to_dict

/-- The three `if key in data` field assignments of `update_task`
(lines 340-346). -/
def applyBody (d : TaskBody) (t : Task) : Task :=
  let t1 : Task := match d.title with
    | some v => { t with title := v }
    | none => t
  let t2 : Task := match d.description with
    | some v => { t1 with description := some v }
    | none => t1
  match d.completed with
  | some v => { t2 with completed := v }
  | none => t2

/-- Replace the first row satisfying `p` by its image under `f`
(the ORM mutates the single object `query.get` returned). -/
def updateFirst (p : Task → Bool) (f : Task → Task) : List Task → List Task
  | [] => []
  | t :: ts => if p t then f t :: ts else t :: updateFirst p f ts

/-- `update_task` (lines 325-366): 404 when no row has the id; a
`None` body makes `'title' in data` raise, caught as 500 with the
session rolled back (database unchanged); otherwise apply the supplied
fields to the found row, commit, and respond 200 with its `to_dict`. -/
def update_task (db : List Task) (task_id : Nat) (data : Option TaskBody) :
    List Task × UpdateResult :=
  match db.find? (fun t => t.id == task_id) with
  | none => (db, .notFound)
  | some t =>
    match data with
    | none => (db, .serverError)
    | some d =>
      (updateFirst (fun x => x.id == task_id) (fun _ => applyBody d t) db,
       .ok (applyBody d t).to_dict)

/-- `find?` success decomposes the list around the first hit. -/
theorem find?_decomp {p : Task → Bool} {l : List Task} {t : Task}
    (h : l.find? p = some t) :
    p t = true ∧ ∃ pre post, l = pre ++ t :: post ∧ ∀ x ∈ pre, p x = false := by
  induction l with
  | nil => simp at h
  | cons a l ih =>
    by_cases hp : p a = true
    · rw [List.find?_cons_of_pos _ hp] at h
      obtain rfl : a = t := by injection h
      exact ⟨hp, [], l, rfl, by simp⟩
    · rw [List.find?_cons_of_neg _ (by simpa using hp)] at h
      obtain ⟨hpt, pre, post, rfl, hpre⟩ := ih h
      refine ⟨hpt, a :: pre, post, rfl, ?_⟩
      intro x hx
      rcases List.mem_cons.mp hx with rfl | hx
      · simpa using hp
      · exact hpre x hx

/-- `updateFirst` rewrites exactly the head of the matching suffix. -/
theorem updateFirst_append {p : Task → Bool} {f : Task → Task}
    {pre post : List Task} {t : Task}
    (hpre : ∀ x ∈ pre, p x = false) (hpt : p t = true) :
    updateFirst p f (pre ++ t :: post) = pre ++ f t :: post := by
  induction pre with
  | nil => simp [updateFirst, hpt]
  | cons a pre ih =>
    have ha : p a = false := hpre a (by simp)
    simp only [List.cons_append, updateFirst, ha]
    rw [if_neg (by simp [ha])]
    simp only [List.append_eq]
    rw [ih (fun x hx => hpre x (by simp [hx]))]

/-- Every element of a list is bounded by `foldl max`. -/
theorem le_foldl_max (l : List Nat) (a : Nat) :
    a ≤ l.foldl max a ∧ ∀ x ∈ l, x ≤ l.foldl max a := by
  induction l generalizing a with
  | nil => simp
  | cons b l ih =>
    obtain ⟨h1, h2⟩ := ih (max a b)
    refine ⟨le_trans (le_max_left a b) h1, ?_⟩
    intro x hx
    rcases List.mem_cons.mp hx with h3 | hx
    · rw [h3]
      exact le_trans (le_max_right a b) h1
    · exact h2 x hx

/-- Existing rows all have ids strictly below the fresh id. -/
theorem id_lt_freshId {db : List Task} {x : Task} (hx : x ∈ db) :
    x.id < freshId db := by
  have := (le_foldl_max (db.map (fun t => t.id)) 0).2 x.id
    (List.mem_map.mpr ⟨x, hx, rfl⟩)
  rw [freshId]
  omega

/-- `find?` skips a prefix on which the predicate is false. -/
theorem find?_append_none {p : Task → Bool} {l1 l2 : List Task}
    (h : ∀ x ∈ l1, p x = false) :
    (l1 ++ l2).find? p = l2.find? p := by
  induction l1 with
  | nil => simp
  | cons a l ih =>
    rw [List.cons_append, List.find?_cons_of_neg _ (by simp [h a (by simp)])]
    exact ih (fun x hx => h x (by simp [hx]))

/-- Looking up the fresh id after the insert finds the inserted row. -/
theorem find?_fresh (db : List Task) (t : Task) (ht : t.id = freshId db) :
    (db ++ [t]).find? (fun x => x.id == freshId db) = some t := by
  rw [find?_append_none]
  · simp [List.find?, ht]
  · intro x hx
    simp
    have := id_lt_freshId hx
    omega

/-- Field-wise description of `applyBody`: supplied fields take the
supplied value, absent fields keep the row's previous value, and `id`
and `created_at` are never touched. -/
theorem applyBody_fields (d : TaskBody) (t : Task) :
    (applyBody d t).id = t.id
  ∧ (applyBody d t).created_at = t.created_at
  ∧ (applyBody d t).title = d.title.getD t.title
  ∧ (applyBody d t).description = (d.description.map some).getD t.description
  ∧ (applyBody d t).completed = d.completed.getD t.completed := by
  rcases d with ⟨dt, dd, dc⟩
  cases dt <;> cases dd <;> cases dc <;> exact ⟨rfl, rfl, rfl, rfl, rfl⟩

/-- C8: for `PUT /api/tasks/{id}` on an existing task, only the fields
supplied in the body change (`getD` semantics: supplied value, else
previous value), `id` and `created_at` are unchanged, every other row
of the table is untouched and row order is preserved. -/
theorem C8_partial_update (db : List Task) (task_id : Nat) (d : TaskBody) (t : Task)
    (h : db.find? (fun x => x.id == task_id) = some t) :
    ∃ pre post,
      db = pre ++ t :: post
    ∧ update_task db task_id (some d)
        = (pre ++ applyBody d t :: post, .ok (applyBody d t).to_dict)
    ∧ (applyBody d t).id = t.id
    ∧ (applyBody d t).created_at = t.created_at
    ∧ (applyBody d t).title = d.title.getD t.title
    ∧ (applyBody d t).description = (d.description.map some).getD t.description
    ∧ (applyBody d t).completed = d.completed.getD t.completed := by
  obtain ⟨hpt, pre, post, hdb, hpre⟩ := find?_decomp h
  obtain ⟨f1, f2, f3, f4, f5⟩ := applyBody_fields d t
  refine ⟨pre, post, hdb, ?_, f1, f2, f3, f4, f5⟩
  rw [update_task, h]
  show (updateFirst (fun x => x.id == task_id) (fun _ => applyBody d t) db,
    UpdateResult.ok (applyBody d t).to_dict) = _
  rw [hdb, updateFirst_append hpre hpt]

/-- An arbitrary concrete instant. -/
def exDT : PyDateTime := ⟨2026, 10, 12, 9, 30, 5, 0⟩

/-- A concrete existing row. -/
def exTask : Task := ⟨1, "a", some "b", false, exDT⟩

/-- A concrete body supplying only `completed`. -/
def exBody : TaskBody := ⟨none, none, some true⟩

/-- C8 witness: the update of an existing concrete row. -/
theorem C8_witness :
    ([exTask].find? (fun x => x.id == 1) = some exTask)
  ∧ (∃ pre post,
      [exTask] = pre ++ exTask :: post
    ∧ update_task [exTask] 1 (some exBody)
        = (pre ++ applyBody exBody exTask :: post, .ok (applyBody exBody exTask).to_dict)
    ∧ (applyBody exBody exTask).id = exTask.id
    ∧ (applyBody exBody exTask).created_at = exTask.created_at
    ∧ (applyBody exBody exTask).title = exBody.title.getD exTask.title
    ∧ (applyBody exBody exTask).description
        = (exBody.description.map some).getD exTask.description
    ∧ (applyBody exBody exTask).completed = exBody.completed.getD exTask.completed) :=
  ⟨rfl, C8_partial_update [exTask] 1 exBody exTask rfl⟩

/-- C9: creating a task from a-title b-description then fetching the
fresh id returns the same title and description, `completed = false`,
and a parseable ISO-8601 `created_at`. -/
theorem C9_roundtrip (db : List Task) (now : PyDateTime) (hv : now.Valid) :
    (create_task db (some ⟨some "a", some "b", none⟩) now).snd
        = .created ⟨freshId db, "a", some "b", false, now.isoformat⟩
  ∧ get_task (create_task db (some ⟨some "a", some "b", none⟩) now).fst (freshId db)
        = .ok ⟨freshId db, "a", some "b", false, now.isoformat⟩
  ∧ isParseableISO now.isoformat = true := by
  refine ⟨rfl, ?_, checkISO_isoChars hv⟩
  simp only [create_task, get_task, Option.getD_some, Option.getD_none]
  rw [find?_fresh db ⟨freshId db, "a", some "b", false, now⟩ rfl]
  rfl

/-- C9 witness: the round trip at a concrete instant on the empty table. -/
theorem C9_witness :
    exDT.Valid
  ∧ ((create_task [] (some ⟨some "a", some "b", none⟩) exDT).snd
        = .created ⟨freshId [], "a", some "b", false, exDT.isoformat⟩
    ∧ get_task (create_task [] (some ⟨some "a", some "b", none⟩) exDT).fst (freshId [])
        = .ok ⟨freshId [], "a", some "b", false, exDT.isoformat⟩
    ∧ isParseableISO exDT.isoformat = true) :=
  ⟨by norm_num [PyDateTime.Valid, exDT],
   C9_roundtrip [] exDT (by norm_num [PyDateTime.Valid, exDT])⟩

/-! ## `POST /api/smoke/db` (`db_smoke`, `backend/app.py` lines 423-468) -/

/-- The SQLite engine as seen through one connection: the committed
contents of the `tasks` table and, when an explicit transaction is
open, its uncommitted working view. -/
structure ConnState where
  committed : List Task
  tx : Option (List Task)
deriving DecidableEq, Repr

/-- `conn.begin()`: open a transaction whose working view starts from
the committed state. -/
def beginTx (s : ConnState) : ConnState := ⟨s.committed, some s.committed⟩

/-- `trans.rollback()`: discard the transaction's working view. -/
def rollbackTx (s : ConnState) : ConnState := ⟨s.committed, none⟩

/-- Execute a data-modifying statement on the connection: inside a
transaction it rewrites only the working view, otherwise it
autocommits directly. -/
def execWrite (f : List Task → List Task) (s : ConnState) : ConnState :=
  match s.tx with
  | some v => ⟨s.committed, some (f v)⟩
  | none => ⟨f s.committed, none⟩

/-- The smoke insert statement: append one `smoke-{i}` row. -/
def smokeInsert (i : Nat) (now : PyDateTime) (db : List Task) : List Task :=
  db ++ [⟨freshId db, "smoke-" ++ toString i, some "smoke-test", false, now⟩]

/-- `DELETE FROM tasks WHERE title LIKE :prefix` with `smoke-%`. -/
def smokeDelete (db : List Task) : List Task :=
  db.filter (fun t => !(List.isPrefixOf "smoke-".toList t.title.toList))

/-- `read_ops` (line 430). -/
def readOps (ops : Nat) (mode : String) : Nat :=
  if mode = "read" then ops else if mode = "rw" then ops / 2 else 0

/-- `write_ops` (line 431). -/
def writeOps (ops : Nat) (mode : String) : Nat :=
  if mode = "read" then 0
  else if mode = "write" then ops
  else ops - readOps ops mode

/-- The insert loop (lines 446-450). `failAt = some j` makes the j-th
statement of the transaction raise (the delete being statement number
`write_ops`), modelling an arbitrary `conn.execute` failure; the
returned flag records whether an exception occurred. -/
def runInserts (now : PyDateTime) (failAt : Option Nat) :
    Nat → Nat → ConnState → ConnState × Bool
  | _, 0, s => (s, false)
  | i, k + 1, s =>
    if failAt = some i then (s, true)
    else runInserts now failAt (i + 1) k (execWrite (smokeInsert i now) s)

/-- `db_smoke`: the read loop (`SELECT COUNT(*)`, which does not
modify the table) is followed by a transaction wrapping `write_ops`
inserts and one delete; the transaction is rolled back on the success
path (line 452) and on the exception path (lines 453-455, re-raised
into the outer handler which responds 500). Returns the final table
contents and the HTTP status. -/
def db_smoke (db : List Task) (ops : Nat) (argType : String) (now : PyDateTime)
    (failAt : Option Nat) : List Task × Nat :=
  let wN := writeOps ops argType.toLower
  let s1 := beginTx ⟨db, none⟩
  let res := runInserts now failAt 0 wN s1
  if res.snd then ((rollbackTx res.fst).committed, 500)
  else if failAt = some wN then ((rollbackTx res.fst).committed, 500)
  else ((rollbackTx (execWrite smokeDelete res.fst)).committed, 200)

/-- Inside an open transaction the insert loop never touches the
committed table, and the transaction stays open. -/
theorem runInserts_committed (now : PyDateTime) (failAt : Option Nat) :
    ∀ k i s, s.tx.isSome = true →
      (runInserts now failAt i k s).fst.committed = s.committed
        ∧ (runInserts now failAt i k s).fst.tx.isSome = true := by
  intro k
  induction k with
  | zero => exact fun i s h => ⟨rfl, h⟩
  | succ k ih =>
    intro i s h
    rw [runInserts]
    by_cases hf : failAt = some i
    · rw [if_pos hf]
      exact ⟨rfl, h⟩
    · rw [if_neg hf]
      have hs : (execWrite (smokeInsert i now) s).tx.isSome = true
          ∧ (execWrite (smokeInsert i now) s).committed = s.committed := by
        rcases s with ⟨c, tx⟩
        cases tx with
        | none => simp at h
        | some v => exact ⟨rfl, rfl⟩
      obtain ⟨h1, h2⟩ := ih (i + 1) (execWrite (smokeInsert i now) s) hs.1
      exact ⟨h1.trans hs.2, h2⟩

/-- C10: the smoke endpoint preserves the tasks table. -/
theorem C10_smoke_preserves (db : List Task) (ops : Nat) (argType : String)
    (now : PyDateTime) (failAt : Option Nat) :
    (db_smoke db ops argType now failAt).fst = db := by
  rw [db_smoke]
  obtain ⟨hc, ht⟩ := runInserts_committed now failAt
    (writeOps ops argType.toLower) 0 (beginTx ⟨db, none⟩) rfl
  by_cases h1 : (runInserts now failAt 0 (writeOps ops argType.toLower)
      (beginTx ⟨db, none⟩)).snd = true
  · simp only [h1, if_pos]
    simpa [rollbackTx, beginTx] using hc
  · rw [if_neg (by simpa using h1)]
    by_cases h2 : failAt = some (writeOps ops argType.toLower)
    · rw [if_pos h2]
      simpa [rollbackTx, beginTx] using hc
    · rw [if_neg h2]
      have hdel : (execWrite smokeDelete
          (runInserts now failAt 0 (writeOps ops argType.toLower)
            (beginTx ⟨db, none⟩)).fst).committed
          = (runInserts now failAt 0 (writeOps ops argType.toLower)
              (beginTx ⟨db, none⟩)).fst.committed := by
        generalize hres : (runInserts now failAt 0 (writeOps ops argType.toLower)
          (beginTx ⟨db, none⟩)).fst = res
        rw [hres] at ht
        rcases res with ⟨c, tx⟩
        cases tx with
        | none => simp at ht
        | some v => rfl
      show (rollbackTx (execWrite smokeDelete _)).committed = db
      rw [rollbackTx]
      simpa [beginTx] using hdel.trans hc

end ObsLab
